import Mathlib

/-!
Verification development for the emag_erp task orchestration and retry
subsystem, the per-record lock, the profit formula contract, and the
frontend auth-store checkAuth action.

The frontend code under src/frontend and the unnamed frontend/store files
are embedded directly.  The backend task store, retry scheduler, lock
manager and profit service are part of this repository but their Python
sources are not available here; those operations are modelled from the
specification text, with each such definition marked in its doc comment.
Configuration constants come from the README configuration section.
-/

namespace EmagErp

/-- Task kind, from the data model: one of keyword_search, product_crawl,
monitor_crawl, listed_at_lookup. -/
inductive TaskKind where
  | keyword_search
  | product_crawl
  | monitor_crawl
  | listed_at_lookup
deriving DecidableEq, Repr

/-- Task priority: high, normal, low. -/
inductive Priority where
  | high
  | normal
  | low
deriving DecidableEq, Repr

/-- Task lifecycle status: pending, processing, completed, failed. -/
inductive TaskStatus where
  | pending
  | processing
  | completed
  | failed
deriving DecidableEq, Repr

/-- A task record, fields as in the data model (timestamps as Nat). -/
structure Task where
  id : Nat
  kind : TaskKind
  payload_ref : Nat
  status : TaskStatus
  priority : Priority
  retry_count : Nat
  max_retries : Nat
  next_attempt_at : Nat
  error_message : Option String
  error_type : Option String
  created_at : Nat
  updated_at : Nat
  completed_at : Option Nat
deriving DecidableEq, Repr

/-- Configured default retry ceiling, from the README env block
(MAX_RETRY_COUNT=5). -/
def MAX_RETRY_COUNT : Nat := 5

/-- Configured backoff base, from the README env block
(RETRY_BACKOFF_BASE=2). -/
def RETRY_BACKOFF_BASE : Nat := 2

/-- Configured backoff cap, from the README env block
(RETRY_BACKOFF_MAX=60). -/
def RETRY_BACKOFF_MAX : Nat := 60

/-- Per-kind worker pool sizes as configured in the README env block:
KEYWORD_SEARCH_THREADS=20, PRODUCT_CRAWL_THREADS=50, MONITOR_THREADS=30.
No thread setting exists for listed_at_lookup. -/
def configuredThreads : TaskKind → Option Nat
  | TaskKind.keyword_search => some 20
  | TaskKind.product_crawl => some 50
  | TaskKind.monitor_crawl => some 30
  | TaskKind.listed_at_lookup => none

/-- Modelled from the spec: backoff policy of 4.3, the backend retry
scheduler source being absent.  Delay is min(backoff_max,
backoff_base ^ retry_count) seconds. -/
def backoffDelay (base bmax k : Nat) : Nat := min bmax (base ^ k)

/-- Modelled from the spec: mark_failed of 4.1 and 4.2, the backend task
store source being absent.  A processing task with retry_count below
max_retries goes back to pending with an incremented retry_count and a
deferred next_attempt_at; at the ceiling it becomes failed.  The error is
recorded on either branch.  On a task not in processing (an invariant
violation, logged upstream) the state is left unchanged. -/
def markFailed (now : Nat) (etype emsg : String) (t : Task) : Task :=
  if t.status = TaskStatus.processing then
    if t.retry_count < t.max_retries then
      { t with status := TaskStatus.pending,
               retry_count := t.retry_count + 1,
               next_attempt_at :=
                 now + backoffDelay RETRY_BACKOFF_BASE RETRY_BACKOFF_MAX (t.retry_count + 1),
               error_type := some etype,
               error_message := some emsg,
               updated_at := now }
    else
      { t with status := TaskStatus.failed,
               error_type := some etype,
               error_message := some emsg,
               updated_at := now }
  else t

/-- Modelled from the spec: mark_completed of 4.1, the backend task store
source being absent.  Transitions processing to completed, sets
completed_at, clears error fields; otherwise leaves the task unchanged. -/
def markCompleted (now : Nat) (t : Task) : Task :=
  if t.status = TaskStatus.processing then
    { t with status := TaskStatus.completed,
             completed_at := some now,
             error_type := none,
             error_message := none,
             updated_at := now }
  else t

/-- Modelled from the spec: enqueue of 4.1, the backend task store source
being absent.  Creates a pending task with retry_count=0 and
next_attempt_at=now. -/
def enqueue (id : Nat) (kind : TaskKind) (payload : Nat) (prio : Priority)
    (maxr now : Nat) (store : List Task) : List Task :=
  store ++ [{ id := id, kind := kind, payload_ref := payload,
              status := TaskStatus.pending, priority := prio,
              retry_count := 0, max_retries := maxr, next_attempt_at := now,
              error_message := none, error_type := none,
              created_at := now, updated_at := now, completed_at := none }]

/-- Rank of a priority for dequeue ordering: high before normal before low. -/
def priorityRank : Priority → Nat
  | Priority.high => 0
  | Priority.normal => 1
  | Priority.low => 2

/-- A task is eligible for claiming by a pool of the given kind when it is
pending, of that kind, and next_attempt_at has passed. -/
def eligible (kind : TaskKind) (now : Nat) (t : Task) : Bool :=
  t.status == TaskStatus.pending && t.kind == kind &&
    Nat.ble t.next_attempt_at now

/-- Dequeue ordering key: priority rank first, then created_at. -/
def taskKey (t : Task) : Nat × Nat := (priorityRank t.priority, t.created_at)

/-- Strict lexicographic comparison of dequeue keys. -/
def keyLt (a b : Nat × Nat) : Bool :=
  Nat.blt a.1 b.1 || (a.1 == b.1 && Nat.blt a.2 b.2)

/-- First minimal element of a task list under the dequeue ordering. -/
def pickMin : List Task → Option Task
  | [] => none
  | t :: ts =>
    match pickMin ts with
    | none => some t
    | some u => if keyLt (taskKey u) (taskKey t) then some u else some t

/-- Sets the task with the given id to processing, leaving others alone. -/
def setProcessing (now tid : Nat) (t : Task) : Task :=
  if t.id = tid then { t with status := TaskStatus.processing, updated_at := now }
  else t

/-- Modelled from the spec: claim_next of 4.1 and section 5, the backend
task store source being absent.  Atomically selects one pending task of
the given kind with next_attempt_at less than or equal to now, ordered by
priority then created_at ascending, transitions it to processing and
returns it, or returns none.  The whole call is one atomic step. -/
def claimNext (kind : TaskKind) (now : Nat) (store : List Task) :
    Option Task × List Task :=
  match pickMin (store.filter (eligible kind now)) with
  | none => (none, store)
  | some t =>
      (some { t with status := TaskStatus.processing, updated_at := now },
       store.map (setProcessing now t.id))

/-- Resets a task for an operator retry: retry_count=0, next_attempt_at=now,
status=pending. -/
def resetForRetry (now : Nat) (t : Task) : Task :=
  { t with status := TaskStatus.pending, retry_count := 0,
           next_attempt_at := now, updated_at := now }

/-- Whether the store holds a failed task with the given id. -/
def isFailedId (store : List Task) (i : Nat) : Bool :=
  store.any (fun t => t.id == i && t.status == TaskStatus.failed)

/-- Modelled from the spec: batch_retry of 4.1, the backend task store
source being absent.  Each supplied id whose task is failed is reset to
pending with retry_count=0 and next_attempt_at=now; other ids are skipped
and counted.  Returns the new store, success_count and skipped_count; the
function is total, so the batch never errors as a whole. -/
def batchRetry (now : Nat) (ids : List Nat) (store : List Task) :
    List Task × Nat × Nat :=
  (store.map (fun t =>
      if ids.contains t.id && t.status == TaskStatus.failed then
        resetForRetry now t
      else t),
   (ids.filter (fun i => isFailedId store i)).length,
   (ids.filter (fun i => !isFailedId store i)).length)

/-- The retry-ceiling invariant over a store: every task has
retry_count at most max_retries. -/
def StoreInv (s : List Task) : Prop :=
  ∀ t ∈ s, t.retry_count ≤ t.max_retries

/-- One atomic operation of the task store, as a step relation from the
store contents s. -/
inductive StoreStep (s : List Task) : List Task → Prop
  | enq (id : Nat) (kind : TaskKind) (payload : Nat) (prio : Priority)
      (maxr now : Nat) :
      StoreStep s (enqueue id kind payload prio maxr now s)
  | claim (kind : TaskKind) (now : Nat) :
      StoreStep s (claimNext kind now s).2
  | complete (tid now : Nat) :
      StoreStep s (s.map (fun t => if t.id = tid then markCompleted now t else t))
  | fail (tid now : Nat) (etype emsg : String) :
      StoreStep s (s.map (fun t => if t.id = tid then markFailed now etype emsg t else t))
  | retry (now : Nat) (ids : List Nat) :
      StoreStep s (batchRetry now ids s).1

/-- State of the advisory lock carried by a lockable record. -/
structure LockState where
  is_locked : Bool
  locked_by_user_id : Option Nat
  locked_at : Option Nat
deriving DecidableEq, Repr

/-- Result of try_lock: ok, or already_locked reporting the holder. -/
inductive LockResult where
  | ok
  | already_locked (holder : Option Nat)
deriving DecidableEq, Repr

/-- Result of unlock: ok or forbidden. -/
inductive UnlockResult where
  | ok
  | forbidden
deriving DecidableEq, Repr

/-- Modelled from the spec: try_lock of 4.6, the backend lock manager
source being absent.  Sets is_locked=true, locked_by_user_id=user_id,
locked_at=now only if currently unlocked; first writer wins, no queue. -/
def tryLock (r : LockState) (user_id now : Nat) : LockResult × LockState :=
  if r.is_locked then (LockResult.already_locked r.locked_by_user_id, r)
  else (LockResult.ok,
        { is_locked := true, locked_by_user_id := some user_id,
          locked_at := some now })

/-- Modelled from the spec: unlock of 4.6, the backend lock manager source
being absent.  Succeeds if the actor holds the lock or is privileged,
otherwise forbidden; success clears the lock fields. -/
def unlock (r : LockState) (actor_user_id : Nat) (actor_is_privileged : Bool) :
    UnlockResult × LockState :=
  if r.locked_by_user_id == some actor_user_id || actor_is_privileged then
    (UnlockResult.ok,
     { is_locked := false, locked_by_user_id := none, locked_at := none })
  else (UnlockResult.forbidden, r)

/-- The lock invariant: an unlocked record names no holder. -/
def LockInv (r : LockState) : Prop :=
  r.is_locked = false → r.locked_by_user_id = none

/-- The lock fields of a listing row as seen by the frontend. -/
structure ListingProduct where
  is_locked : Bool
  locked_by_user_id : Option Nat
deriving DecidableEq, Repr

/-- canEditProduct from the ProductLibrary view: editable when the product
is not locked, or the viewer is admin, or the viewer holds the lock. -/
def canEditProduct (isAdmin : Bool) (currentUserId : Option Nat)
    (product : ListingProduct) : Bool :=
  if !product.is_locked then true
  else if isAdmin then true
  else product.locked_by_user_id == currentUserId

/-- isProductLocked from the ProductLibrary view: shown as locked when
locked, the viewer is not admin, and the viewer is not the holder. -/
def isProductLocked (isAdmin : Bool) (currentUserId : Option Nat)
    (product : ListingProduct) : Bool :=
  if !product.is_locked then false
  else if isAdmin then false
  else product.locked_by_user_id != currentUserId

/-- Modelled from the spec: total_cost of the profit formula in section 6,
the backend profit service source being absent. -/
def total_cost (purchase_price shipping_cost order_fee storage_fee
    sale_price commission_pct vat_pct : ℚ) : ℚ :=
  purchase_price + shipping_cost + order_fee + storage_fee +
    sale_price * (commission_pct / 100) + sale_price * (vat_pct / 100)

/-- Modelled from the spec: profit of the profit formula in section 6. -/
def profit (purchase_price shipping_cost order_fee storage_fee
    sale_price commission_pct vat_pct : ℚ) : ℚ :=
  sale_price - total_cost purchase_price shipping_cost order_fee storage_fee
    sale_price commission_pct vat_pct

/-- Modelled from the spec: margin_pct of the profit formula in section 6;
zero when sale_price is 0 or unset (none). -/
def margin_pct (purchase_price shipping_cost order_fee storage_fee : ℚ)
    (sale_price : Option ℚ) (commission_pct vat_pct : ℚ) : ℚ :=
  match sale_price with
  | none => 0
  | some sp =>
    if sp = 0 then 0
    else profit purchase_price shipping_cost order_fee storage_fee sp
           commission_pct vat_pct / sp * 100

/-- A worker pool state: one slot per executor of the pool, holding the id
of the task that executor is currently processing, if any. -/
abbrev PoolState := List (Option Nat)

/-- Number of tasks of the pool kind currently processing: the occupied
executor slots. -/
def processingCount (p : PoolState) : Nat := (p.filter Option.isSome).length

/-- Modelled from the spec: one atomic action of a worker pool of 4.4, the
backend worker pool source being absent.  A free executor claims a task;
an occupied executor reports its task done (completed or failed) and frees
its slot. -/
inductive PoolStep : PoolState → PoolState → Prop
  | claim (p q : PoolState) (tid : Nat) :
      PoolStep (p ++ none :: q) (p ++ some tid :: q)
  | report (p q : PoolState) (tid : Nat) :
      PoolStep (p ++ some tid :: q) (p ++ none :: q)

/-- Pool states reachable from the idle pool of the given size. -/
inductive PoolReach (size : Nat) : PoolState → Prop
  | init : PoolReach size (List.replicate size none)
  | step (s s' : PoolState) :
      PoolReach size s → PoolStep s s' → PoolReach size s'

/-- A frontend user as held by the auth store. -/
structure AuthUser where
  id : Nat
  role : String
deriving DecidableEq, Repr

/-- The in-store auth state of the Vuex auth module. -/
structure AuthState where
  isAuthenticated : Bool
  user : Option AuthUser
  token : Option String
deriving DecidableEq, Repr

/-- The token and user entries of localStorage, as the auth store uses
them.  A user entry that is absent or fails to parse is none; the two
cases drive the same branch of checkAuth. -/
structure LocalStorage where
  token : Option String
  user : Option AuthUser
deriving DecidableEq, Repr

/-- Outcome of the getCurrentUser call made by checkAuth. -/
inductive FetchOutcome where
  | success (u : AuthUser)
  | httpFailure (status : Nat)
  | networkFailure
deriving DecidableEq, Repr

/-- The CLEAR_AUTH mutation: resets the auth state and removes the token
and user entries from localStorage. -/
def CLEAR_AUTH : AuthState × LocalStorage :=
  (⟨false, none, none⟩, ⟨none, none⟩)

/-- The SET_AUTH mutation: marks authenticated and saves the token and
user to localStorage. -/
def SET_AUTH (u : AuthUser) (token : String) : AuthState × LocalStorage :=
  (⟨true, some u, some token⟩, ⟨some token, some u⟩)

/-- The non-401 failure path of checkAuth: keep the current state when the
store already has a user and token; otherwise restore the user from
localStorage when one is there; otherwise keep the token in the state so a
later call can re-verify. -/
def keepOrRestore (st : AuthState) (ls : LocalStorage) (token : String) :
    AuthState × LocalStorage :=
  if st.user.isSome && st.token.isSome then (st, ls)
  else
    match ls.user with
    | some u => SET_AUTH u token
    | none => ({ st with isAuthenticated := true, token := some token }, ls)

/-- The checkAuth action of the auth store: re-reads the token from
localStorage (falling back to the store), clears auth when there is no
token, calls getCurrentUser and on success stores the result; a 401
failure clears auth, and any other failure keeps or restores the state. -/
def checkAuth (st : AuthState) (ls : LocalStorage) (outcome : FetchOutcome) :
    AuthState × LocalStorage :=
  match ls.token.orElse (fun _ => st.token) with
  | none => CLEAR_AUTH
  | some token =>
    match outcome with
    | FetchOutcome.success u => SET_AUTH u token
    | FetchOutcome.httpFailure status =>
        if status = 401 then CLEAR_AUTH else keepOrRestore st ls token
    | FetchOutcome.networkFailure => keepOrRestore st ls token

/-- A pending product_crawl task for the claim-order scenario. -/
def mkPending (id : Nat) (prio : Priority) (created : Nat) : Task :=
  { id := id, kind := TaskKind.product_crawl, payload_ref := 0,
    status := TaskStatus.pending, priority := prio,
    retry_count := 0, max_retries := MAX_RETRY_COUNT, next_attempt_at := 0,
    error_message := none, error_type := none,
    created_at := created, updated_at := created, completed_at := none }

/-- The five product_crawl tasks of the claim-order scenario, created in
order with priorities low, high, normal, high, low. -/
def scenarioStore : List Task :=
  [mkPending 1 Priority.low 1, mkPending 2 Priority.high 2,
   mkPending 3 Priority.normal 3, mkPending 4 Priority.high 4,
   mkPending 5 Priority.low 5]

/-- Ids observed by a single executor claiming repeatedly. -/
def claimIds : Nat → List Task → List Nat
  | 0, _ => []
  | Nat.succ n, s =>
    match claimNext TaskKind.product_crawl 100 s with
    | (none, _) => []
    | (some t, s') => t.id :: claimIds n s'

/-- A task currently being processed, for concrete instantiation. -/
def processingTask : Task :=
  { mkPending 9 Priority.normal 0 with status := TaskStatus.processing }

/-- A terminally failed task (id 1) for the batch-retry scenario. -/
def demoFailedTask : Task :=
  { mkPending 1 Priority.normal 1 with
      status := TaskStatus.failed, retry_count := 5,
      error_type := some "timeout", error_message := some "fetch timed out" }

/-- A completed task (id 2) for the batch-retry scenario. -/
def demoCompletedTask : Task :=
  { mkPending 2 Priority.normal 2 with
      status := TaskStatus.completed, completed_at := some 40 }

/-- A store holding one failed and one completed task. -/
def demoMixedStore : List Task := [demoFailedTask, demoCompletedTask]

/-- The task returned by the first claim on the scenario store. -/
def scenarioClaimedTask : Task :=
  { mkPending 2 Priority.high 2 with
      status := TaskStatus.processing,
      updated_at := 100 }

theorem keyLt_iff (a b : Nat × Nat) :
    keyLt a b = true ↔ a.1 < b.1 ∨ (a.1 = b.1 ∧ a.2 < b.2) := by
  simp [keyLt]

theorem keyLt_irrefl (a : Nat × Nat) : keyLt a a = false := by
  rw [Bool.eq_false_iff, Ne, keyLt_iff]
  omega

theorem keyLt_asymm {a b : Nat × Nat} (h : keyLt a b = true) :
    keyLt b a = false := by
  rw [keyLt_iff] at h
  rw [Bool.eq_false_iff, Ne, keyLt_iff]
  omega

theorem keyLt_false_trans {a b c : Nat × Nat}
    (h1 : keyLt a b = false) (h2 : keyLt b c = false) : keyLt a c = false := by
  rw [Bool.eq_false_iff, Ne, keyLt_iff] at h1 h2 ⊢
  omega

theorem pickMin_eq_none {l : List Task} (h : pickMin l = none) : l = [] := by
  cases l with
  | nil => rfl
  | cons a l =>
    exfalso
    simp only [pickMin] at h
    cases hp : pickMin l <;> rw [hp] at h
    · simp at h
    · rename_i m
      by_cases hlt : keyLt (taskKey m) (taskKey a) = true <;> simp [hlt] at h

theorem pickMin_mem (l : List Task) : ∀ t, pickMin l = some t → t ∈ l := by
  induction l with
  | nil => intro t h; simp [pickMin] at h
  | cons a l ih =>
    intro t h
    simp only [pickMin] at h
    cases hp : pickMin l with
    | none =>
      rw [hp] at h
      simp at h
      simp [h]
    | some m =>
      rw [hp] at h
      by_cases hlt : keyLt (taskKey m) (taskKey a) = true
      · simp [hlt] at h
        subst h
        exact List.mem_cons_of_mem a (ih m hp)
      · simp [hlt] at h
        simp [h]

theorem pickMin_min (l : List Task) : ∀ t, pickMin l = some t →
    ∀ u ∈ l, keyLt (taskKey u) (taskKey t) = false := by
  induction l with
  | nil => intro t h; simp [pickMin] at h
  | cons a l ih =>
    intro t h u hu
    simp only [pickMin] at h
    cases hp : pickMin l with
    | none =>
      rw [hp] at h
      simp at h
      subst h
      have hl : l = [] := pickMin_eq_none hp
      subst hl
      simp at hu
      subst hu
      exact keyLt_irrefl _
    | some m =>
      rw [hp] at h
      by_cases hlt : keyLt (taskKey m) (taskKey a) = true
      · simp [hlt] at h
        subst h
        rcases List.mem_cons.mp hu with rfl | hu2
        · exact keyLt_asymm hlt
        · exact ih m hp u hu2
      · simp [hlt] at h
        subst h
        rcases List.mem_cons.mp hu with rfl | hu2
        · exact keyLt_irrefl _
        · exact keyLt_false_trans (ih m hp u hu2) (Bool.not_eq_true _ ▸ hlt)

theorem eligible_props {kind : TaskKind} {now : Nat} {t : Task}
    (h : eligible kind now t = true) :
    t.status = TaskStatus.pending ∧ t.kind = kind ∧ t.next_attempt_at ≤ now := by
  simp only [eligible, Bool.and_eq_true, beq_iff_eq, Nat.ble_eq] at h
  exact ⟨h.1.1, h.1.2, h.2⟩

theorem claimNext_eq_none_iff (kind : TaskKind) (now : Nat) (s : List Task) :
    (claimNext kind now s).1 = none ↔
      pickMin (s.filter (eligible kind now)) = none := by
  unfold claimNext
  cases hp : pickMin (s.filter (eligible kind now)) <;> simp [hp]

theorem claimNext_eq_some (kind : TaskKind) (now : Nat) (s : List Task)
    (t : Task) (h : (claimNext kind now s).1 = some t) :
    ∃ u, pickMin (s.filter (eligible kind now)) = some u ∧
      t = { u with status := TaskStatus.processing, updated_at := now } ∧
      (claimNext kind now s).2 = s.map (setProcessing now u.id) := by
  cases hp : pickMin (s.filter (eligible kind now)) with
  | none =>
    exfalso
    unfold claimNext at h
    rw [hp] at h
    simp at h
  | some u =>
    refine ⟨u, rfl, ?_, ?_⟩
    · unfold claimNext at h
      rw [hp] at h
      simp at h
      exact h.symm
    · unfold claimNext
      rw [hp]

theorem filter_partition {α : Type} (p : α → Bool) (l : List α) :
    (l.filter p).length + (l.filter (fun a => !p a)).length = l.length := by
  induction l with
  | nil => rfl
  | cons a l ih =>
    by_cases h : p a = true <;>
      simp [List.filter_cons, h] <;> omega

theorem setProcessing_counts (now tid : Nat) (t : Task) :
    (setProcessing now tid t).retry_count = t.retry_count ∧
    (setProcessing now tid t).max_retries = t.max_retries := by
  unfold setProcessing
  split <;> exact ⟨rfl, rfl⟩

theorem markCompleted_counts (now : Nat) (t : Task) :
    (markCompleted now t).retry_count = t.retry_count ∧
    (markCompleted now t).max_retries = t.max_retries := by
  unfold markCompleted
  split <;> exact ⟨rfl, rfl⟩

theorem markFailed_retry_le (now : Nat) (etype emsg : String) (t : Task)
    (h : t.retry_count ≤ t.max_retries) :
    (markFailed now etype emsg t).retry_count ≤
      (markFailed now etype emsg t).max_retries := by
  unfold markFailed
  split
  · split
    · rename_i hlt
      exact hlt
    · exact h
  · exact h

theorem keepOrRestore_token_isSome (st : AuthState) (ls : LocalStorage)
    (token : String) :
    (keepOrRestore st ls token).1.token.isSome = true := by
  unfold keepOrRestore
  split
  · rename_i hguard
    rw [Bool.and_eq_true] at hguard
    exact hguard.2
  · cases hu : ls.user <;> simp [SET_AUTH]

theorem keepOrRestore_ne_clear (st : AuthState) (ls : LocalStorage)
    (token : String) : keepOrRestore st ls token ≠ CLEAR_AUTH := by
  intro h
  have hs := keepOrRestore_token_isSome st ls token
  rw [h] at hs
  simp [CLEAR_AUTH] at hs

/-- C6: can_mutate returns true exactly when the record is unlocked, or the
acting user holds the lock, or the actor is privileged; embedded from the
canEditProduct function of the ProductLibrary view. -/
theorem canEditProduct_iff_unlocked_holder_or_admin
    (isAdmin : Bool) (uid : Option Nat) (p : ListingProduct) :
    canEditProduct isAdmin uid p = true ↔
      (p.is_locked = false ∨ p.locked_by_user_id = uid ∨ isAdmin = true) := by
  unfold canEditProduct
  cases hl : p.is_locked <;> cases isAdmin <;> simp [hl]

/-- Witness for C6: a non-admin holder of the lock may edit. -/
theorem canEditProduct_iff_witness :
    canEditProduct false (some 7) ⟨true, some 7⟩ = true :=
  (canEditProduct_iff_unlocked_holder_or_admin false (some 7)
    ⟨true, some 7⟩).mpr (Or.inr (Or.inl rfl))

/-- C8: the profit formula: total_cost sums the cost components plus
commission and VAT shares of the sale price, profit is sale price minus
total cost, and margin_pct is profit over sale price times 100, zero when
the sale price is zero or unset; on the spec example the values are
22.2, 7.8 and 26.0. -/
theorem profit_formula :
    total_cost 10 2 1 0.5 30 10 19 = 22.2 ∧
    profit 10 2 1 0.5 30 10 19 = 7.8 ∧
    margin_pct 10 2 1 0.5 (some 30) 10 19 = 26 ∧
    (∀ a b c d e f : ℚ, margin_pct a b c d none e f = 0) ∧
    (∀ a b c d e f : ℚ, margin_pct a b c d (some 0) e f = 0) ∧
    (∀ a b c d sp e f : ℚ,
       profit a b c d sp e f = sp - total_cost a b c d sp e f) ∧
    (∀ a b c d sp e f : ℚ, sp ≠ 0 →
       margin_pct a b c d (some sp) e f = profit a b c d sp e f / sp * 100) := by
  refine ⟨by norm_num [total_cost], by norm_num [profit, total_cost],
    by norm_num [margin_pct, profit, total_cost], fun a b c d e f => rfl,
    fun a b c d e f => by simp [margin_pct],
    fun a b c d sp e f => rfl,
    fun a b c d sp e f h => by simp [margin_pct, h]⟩

/-- Witness for C8: the margin formula applied at the spec example. -/
theorem profit_formula_witness :
    margin_pct 10 2 1 0.5 (some 30) 10 19 =
      profit 10 2 1 0.5 30 10 19 / 30 * 100 :=
  profit_formula.2.2.2.2.2.2 10 2 1 0.5 30 10 19 (by norm_num)

/-- C2: on a failure below the ceiling the retry count increments and the
next eligible time is now plus min(backoff_max, backoff_base to the power
of the post-increment retry count); with the configured base 2 and cap 60,
counts 1, 2, 3, 6 give delays 2, 4, 8 and 60. -/
theorem backoff_policy (now : Nat) (etype emsg : String) (t : Task)
    (h1 : t.status = TaskStatus.processing)
    (h2 : t.retry_count < t.max_retries) :
    (markFailed now etype emsg t).retry_count = t.retry_count + 1 ∧
    (markFailed now etype emsg t).next_attempt_at =
      now + backoffDelay RETRY_BACKOFF_BASE RETRY_BACKOFF_MAX
        ((markFailed now etype emsg t).retry_count) ∧
    (∀ k, backoffDelay RETRY_BACKOFF_BASE RETRY_BACKOFF_MAX k = min 60 (2 ^ k)) ∧
    backoffDelay RETRY_BACKOFF_BASE RETRY_BACKOFF_MAX 1 = 2 ∧
    backoffDelay RETRY_BACKOFF_BASE RETRY_BACKOFF_MAX 2 = 4 ∧
    backoffDelay RETRY_BACKOFF_BASE RETRY_BACKOFF_MAX 3 = 8 ∧
    backoffDelay RETRY_BACKOFF_BASE RETRY_BACKOFF_MAX 6 = 60 := by
  unfold markFailed
  rw [if_pos h1, if_pos h2]
  exact ⟨rfl, rfl, fun k => rfl, by decide, by decide, by decide, by decide⟩

/-- Witness for C2: a processing task with retry_count 0 fails and comes
back with retry_count 1. -/
theorem backoff_policy_witness :
    (markFailed 10 "timeout" "request timed out" processingTask).retry_count = 1 :=
  (backoff_policy 10 "timeout" "request timed out" processingTask rfl
    (by decide)).1

/-- C7: on an unlocked record, try_lock by u1 succeeds; afterwards
try_lock by u2 reports already_locked by u1, unlock by non-privileged u2
is forbidden, unlock by u1 succeeds and leaves the record unlocked with no
holder; try_lock and unlock preserve the invariant that an unlocked
record names no holder. -/
theorem lock_protocol (r : LockState) (u1 u2 now : Nat)
    (hne : u1 ≠ u2) (hr : r.is_locked = false) :
    (tryLock r u1 now).1 = LockResult.ok ∧
    (tryLock (tryLock r u1 now).2 u2 now).1 =
      LockResult.already_locked (some u1) ∧
    (unlock (tryLock r u1 now).2 u2 false).1 = UnlockResult.forbidden ∧
    (unlock (tryLock r u1 now).2 u1 false).1 = UnlockResult.ok ∧
    (unlock (tryLock r u1 now).2 u1 false).2.is_locked = false ∧
    (unlock (tryLock r u1 now).2 u1 false).2.locked_by_user_id = none ∧
    (∀ r' u n, LockInv r' → LockInv (tryLock r' u n).2) ∧
    (∀ r' u b, LockInv r' → LockInv (unlock r' u b).2) := by
  have h1 : tryLock r u1 now = (LockResult.ok, ⟨true, some u1, some now⟩) := by
    unfold tryLock
    rw [if_neg (by simp [hr])]
  refine ⟨by rw [h1], by rw [h1]; rfl, ?_, ?_, ?_, ?_, ?_, ?_⟩
  · rw [h1]
    simp [unlock, hne]
  · rw [h1]
    simp [unlock]
  · rw [h1]
    simp [unlock]
  · rw [h1]
    simp [unlock]
  · intro r' u n _
    unfold tryLock
    split
    · assumption
    · intro h
      simp at h
  · intro r' u b hInv
    unfold unlock
    split
    · intro _
      rfl
    · exact hInv

/-- Witness for C7: the protocol run on a fresh record with users 1, 2. -/
theorem lock_protocol_witness :
    (tryLock ⟨false, none, none⟩ 1 5).1 = LockResult.ok :=
  (lock_protocol ⟨false, none, none⟩ 1 2 5 (by decide) rfl).1

theorem poolStep_length {s s' : PoolState} (h : PoolStep s s') :
    s'.length = s.length := by
  cases h <;> simp

theorem poolReach_length {size : Nat} {s : PoolState}
    (h : PoolReach size s) : s.length = size := by
  induction h with
  | init => simp
  | step s s' _ hstep ih => rw [poolStep_length hstep, ih]

/-- C9 counterexample: the configuration surface has no worker-pool size
for listed_at_lookup; only keyword_search, product_crawl and
monitor_crawl carry thread settings. -/
theorem pool_config_lookup_missing :
    configuredThreads TaskKind.listed_at_lookup = none := rfl

/-- C9 amended: the kinds keyword_search, product_crawl and monitor_crawl
have independently configured pool sizes 20, 50 and 30, listed_at_lookup
has none, and in any pool state reachable from the idle pool the number of
simultaneously processing tasks never exceeds the pool size. -/
theorem pool_sizes_and_bound :
    configuredThreads TaskKind.keyword_search = some 20 ∧
    configuredThreads TaskKind.product_crawl = some 50 ∧
    configuredThreads TaskKind.monitor_crawl = some 30 ∧
    configuredThreads TaskKind.listed_at_lookup = none ∧
    (∀ size s, PoolReach size s →
       s.length = size ∧ processingCount s ≤ size) := by
  refine ⟨rfl, rfl, rfl, rfl, fun size s h => ?_⟩
  have hl := poolReach_length h
  exact ⟨hl, le_trans (List.length_filter_le _ _) (le_of_eq hl)⟩

/-- Witness for C9: the idle pool of size 3 is reachable and within
bound. -/
theorem pool_bound_witness :
    processingCount (List.replicate 3 (none : Option Nat)) ≤ 3 :=
  (pool_sizes_and_bound.2.2.2.2 3 (List.replicate 3 none) PoolReach.init).2

theorem checkAuth_no_token (st : AuthState) (ls : LocalStorage)
    (outcome : FetchOutcome)
    (htok : ls.token.orElse (fun _ => st.token) = none) :
    checkAuth st ls outcome = CLEAR_AUTH := by
  unfold checkAuth
  rw [htok]

theorem checkAuth_success (st : AuthState) (ls : LocalStorage) (u : AuthUser)
    (token : String)
    (htok : ls.token.orElse (fun _ => st.token) = some token) :
    checkAuth st ls (FetchOutcome.success u) = SET_AUTH u token := by
  unfold checkAuth
  rw [htok]

theorem checkAuth_httpFailure (st : AuthState) (ls : LocalStorage)
    (status : Nat) (token : String)
    (htok : ls.token.orElse (fun _ => st.token) = some token) :
    checkAuth st ls (FetchOutcome.httpFailure status) =
      if status = 401 then CLEAR_AUTH else keepOrRestore st ls token := by
  unfold checkAuth
  rw [htok]

theorem checkAuth_network (st : AuthState) (ls : LocalStorage)
    (token : String)
    (htok : ls.token.orElse (fun _ => st.token) = some token) :
    checkAuth st ls FetchOutcome.networkFailure = keepOrRestore st ls token := by
  unfold checkAuth
  rw [htok]

theorem SET_AUTH_ne_clear (u : AuthUser) (token : String) :
    SET_AUTH u token ≠ CLEAR_AUTH := by
  simp [SET_AUTH, CLEAR_AUTH]

/-- C10: checkAuth clears the stored credentials exactly when there is no
token or getCurrentUser failed with HTTP 401; on any other failure the
in-store token is retained. -/
theorem checkAuth_clears_only_on_missing_token_or_401
    (st : AuthState) (ls : LocalStorage) (outcome : FetchOutcome) :
    (checkAuth st ls outcome = CLEAR_AUTH ↔
      (ls.token.orElse (fun _ => st.token) = none ∨
       outcome = FetchOutcome.httpFailure 401)) ∧
    (∀ tok, ls.token.orElse (fun _ => st.token) = some tok →
       outcome ≠ FetchOutcome.httpFailure 401 →
       (checkAuth st ls outcome).1.token.isSome = true) := by
  constructor
  · cases htok : ls.token.orElse (fun _ => st.token) with
    | none =>
      rw [checkAuth_no_token st ls outcome htok]
      simp [htok]
    | some token =>
      cases outcome with
      | success u =>
        rw [checkAuth_success st ls u token htok]
        constructor
        · intro h
          exact absurd h (SET_AUTH_ne_clear u token)
        · intro h
          rcases h with h | h <;> simp [htok] at h
      | httpFailure status =>
        rw [checkAuth_httpFailure st ls status token htok]
        by_cases h401 : status = 401
        · subst h401
          simp [htok]
        · rw [if_neg h401]
          constructor
          · intro h
            exact absurd h (keepOrRestore_ne_clear st ls token)
          · intro h
            rcases h with h | h
            · simp [htok] at h
            · rw [FetchOutcome.httpFailure.injEq] at h
              exact absurd h h401
      | networkFailure =>
        rw [checkAuth_network st ls token htok]
        constructor
        · intro h
          exact absurd h (keepOrRestore_ne_clear st ls token)
        · intro h
          rcases h with h | h <;> simp [htok] at h
  · intro tok htok hne
    cases outcome with
    | success u =>
      rw [checkAuth_success st ls u tok htok]
      simp [SET_AUTH]
    | httpFailure status =>
      have h401 : status ≠ 401 := by
        intro h
        exact hne (by rw [h])
      rw [checkAuth_httpFailure st ls status tok htok, if_neg h401]
      exact keepOrRestore_token_isSome st ls tok
    | networkFailure =>
      rw [checkAuth_network st ls tok htok]
      exact keepOrRestore_token_isSome st ls tok

/-- Witness for C10: a network failure with a stored token keeps the
token. -/
theorem checkAuth_witness :
    (checkAuth ⟨true, some ⟨1, "admin"⟩, some "tok"⟩
      ⟨some "tok", some ⟨1, "admin"⟩⟩
      FetchOutcome.networkFailure).1.token.isSome = true :=
  (checkAuth_clears_only_on_missing_token_or_401
    ⟨true, some ⟨1, "admin"⟩, some "tok"⟩ ⟨some "tok", some ⟨1, "admin"⟩⟩
    FetchOutcome.networkFailure).2 "tok" rfl (by decide)

/-- C1: every task-store operation preserves the invariant that
retry_count never exceeds max_retries; a failure at the ceiling makes the
task failed without touching retry_count, and claim_next never reschedules
a failed task. -/
theorem retry_ceiling_invariant :
    (∀ s s', StoreInv s → StoreStep s s' → StoreInv s') ∧
    (∀ now etype emsg t, t.status = TaskStatus.processing →
       t.max_retries ≤ t.retry_count →
       (markFailed now etype emsg t).status = TaskStatus.failed ∧
       (markFailed now etype emsg t).retry_count = t.retry_count) ∧
    (∀ kind now s u, s.Pairwise (fun a b => a.id ≠ b.id) → u ∈ s →
       u.status = TaskStatus.failed → u ∈ (claimNext kind now s).2) := by
  refine ⟨?_, ?_, ?_⟩
  · intro s s' hInv hstep
    cases hstep with
    | enq id kd pl pr mr nw =>
      intro t ht
      unfold enqueue at ht
      rcases List.mem_append.mp ht with h | h
      · exact hInv t h
      · rw [List.mem_singleton] at h
        subst h
        exact Nat.zero_le _
    | claim kd nw =>
      intro t ht
      cases hp : pickMin (s.filter (eligible kd nw)) with
      | none =>
        unfold claimNext at ht
        rw [hp] at ht
        exact hInv t ht
      | some u =>
        unfold claimNext at ht
        rw [hp] at ht
        have ht' : t ∈ s.map (setProcessing nw u.id) := ht
        rcases List.mem_map.mp ht' with ⟨v, hv, rfl⟩
        have hc := setProcessing_counts nw u.id v
        rw [hc.1, hc.2]
        exact hInv v hv
    | complete tid nw =>
      intro t ht
      rcases List.mem_map.mp ht with ⟨v, hv, rfl⟩
      by_cases h : v.id = tid
      · rw [if_pos h]
        have hc := markCompleted_counts nw v
        rw [hc.1, hc.2]
        exact hInv v hv
      · rw [if_neg h]
        exact hInv v hv
    | fail tid nw etype emsg =>
      intro t ht
      rcases List.mem_map.mp ht with ⟨v, hv, rfl⟩
      by_cases h : v.id = tid
      · rw [if_pos h]
        exact markFailed_retry_le nw etype emsg v (hInv v hv)
      · rw [if_neg h]
        exact hInv v hv
    | retry nw ids =>
      intro t ht
      have ht' : t ∈ s.map (fun v =>
          if ids.contains v.id && v.status == TaskStatus.failed then
            resetForRetry nw v
          else v) := ht
      rcases List.mem_map.mp ht' with ⟨v, hv, rfl⟩
      by_cases h : (ids.contains v.id && v.status == TaskStatus.failed) = true
      · rw [if_pos h]
        exact Nat.zero_le _
      · rw [if_neg h]
        exact hInv v hv
  · intro now etype emsg t h1 h2
    unfold markFailed
    rw [if_pos h1, if_neg (Nat.not_lt.mpr h2)]
    exact ⟨rfl, rfl⟩
  · intro kd nw s u hpw hu hfail
    cases hp : pickMin (s.filter (eligible kd nw)) with
    | none =>
      unfold claimNext
      rw [hp]
      exact hu
    | some m =>
      unfold claimNext
      rw [hp]
      have hm := pickMin_mem _ m hp
      have hin := List.mem_filter.mp hm
      have hpend : m.status = TaskStatus.pending := (eligible_props hin.2).1
      have hne_elem : u ≠ m := by
        intro he
        rw [he, hpend] at hfail
        exact absurd hfail (by decide)
      have hsymm : Symmetric (fun a b : Task => a.id ≠ b.id) := by
        intro x y hxy he
        exact hxy he.symm
      have hidne : u.id ≠ m.id := hpw.forall hsymm hu hin.1 hne_elem
      exact List.mem_map.mpr ⟨u, hu, by simp [setProcessing, hidne]⟩

/-- Witness for C1: a claim step on the scenario store preserves the
invariant. -/
theorem retry_ceiling_witness :
    StoreInv (claimNext TaskKind.product_crawl 100 scenarioStore).2 :=
  retry_ceiling_invariant.1 scenarioStore _
    (by show ∀ t ∈ scenarioStore, t.retry_count ≤ t.max_retries; decide)
    (StoreStep.claim TaskKind.product_crawl 100)

/-- C3: claim_next returns none exactly when no pending task of the kind
is due; a returned task is an eligible task of minimal priority-rank and
created_at, transitioned to processing; the five-task scenario with
priorities low, high, normal, high, low is claimed in the order
2, 4, 3, 1, 5. -/
theorem claim_next_order :
    (∀ kind now s, (claimNext kind now s).1 = none ↔
       ∀ t ∈ s, eligible kind now t = false) ∧
    (∀ kind now s t, (claimNext kind now s).1 = some t →
       ∃ u ∈ s, eligible kind now u = true ∧
         t = { u with status := TaskStatus.processing, updated_at := now } ∧
         ∀ v ∈ s, eligible kind now v = true →
           keyLt (taskKey v) (taskKey u) = false) ∧
    claimIds 6 scenarioStore = [2, 4, 3, 1, 5] := by
  refine ⟨?_, ?_, by decide⟩
  · intro kind now s
    rw [claimNext_eq_none_iff]
    constructor
    · intro h t ht
      have hnil := pickMin_eq_none h
      by_contra hne
      have htf : t ∈ s.filter (eligible kind now) :=
        List.mem_filter.mpr ⟨ht, by rwa [Bool.not_eq_false] at hne⟩
      rw [hnil] at htf
      simp at htf
    · intro h
      have hnil : s.filter (eligible kind now) = [] :=
        List.filter_eq_nil_iff.mpr (fun a ha => by simp [h a ha])
      rw [hnil]
      rfl
  · intro kind now s t h
    rcases claimNext_eq_some kind now s t h with ⟨u, hp, ht, _⟩
    have hin := List.mem_filter.mp (pickMin_mem _ u hp)
    refine ⟨u, hin.1, hin.2, ht, ?_⟩
    intro v hv hel
    exact pickMin_min _ u hp v (List.mem_filter.mpr ⟨hv, hel⟩)

/-- Witness for C3: the empty store yields no claim. -/
theorem claim_next_order_witness :
    (claimNext TaskKind.product_crawl 0 ([] : List Task)).1 = none :=
  (claim_next_order.1 TaskKind.product_crawl 0 []).mpr
    (fun t ht => absurd ht (List.not_mem_nil t))

/-- C4: batch_retry resets every supplied failed task to pending with
retry_count 0 and next_attempt_at now, leaves non-failed tasks unchanged,
never errors as a whole (it is a total function), and its two counters
partition the supplied ids, skipped_count being the number of non-failed
ids; on a store with one failed and one completed task it resets only the
failed one and reports one success and one skip. -/
theorem batch_retry_resets_failed_and_skips :
    (∀ now ids s t, t ∈ s → t.status = TaskStatus.failed →
       ids.contains t.id = true →
       resetForRetry now t ∈ (batchRetry now ids s).1) ∧
    (∀ now ids s t, t ∈ s → t.status ≠ TaskStatus.failed →
       t ∈ (batchRetry now ids s).1) ∧
    (∀ now ids s t, t ∈ s → ids.contains t.id = false →
       t ∈ (batchRetry now ids s).1) ∧
    (∀ now ids s,
       (batchRetry now ids s).2.1 + (batchRetry now ids s).2.2 = ids.length) ∧
    (∀ now ids s, (batchRetry now ids s).2.2 =
       (ids.filter (fun i => !isFailedId s i)).length) ∧
    (batchRetry 50 [1, 2] demoMixedStore).1 =
      [resetForRetry 50 demoFailedTask, demoCompletedTask] ∧
    (batchRetry 50 [1, 2] demoMixedStore).2.1 = 1 ∧
    (batchRetry 50 [1, 2] demoMixedStore).2.2 = 1 := by
  refine ⟨?_, ?_, ?_, ?_, fun now ids s => rfl, by decide, by decide, by decide⟩
  · intro now ids s t ht hf hc
    refine List.mem_map.mpr ⟨t, ht, ?_⟩
    have hcond : (ids.contains t.id && t.status == TaskStatus.failed) = true := by
      rw [hc, hf]
      rfl
    rw [if_pos hcond]
  · intro now ids s t ht hnf
    refine List.mem_map.mpr ⟨t, ht, ?_⟩
    rw [if_neg]
    intro hcond
    rw [Bool.and_eq_true] at hcond
    exact hnf (by simpa using hcond.2)
  · intro now ids s t ht hc
    refine List.mem_map.mpr ⟨t, ht, ?_⟩
    rw [if_neg]
    intro hcond
    rw [Bool.and_eq_true] at hcond
    rw [hc] at hcond
    exact absurd hcond.1 (by decide)
  · intro now ids s
    exact filter_partition (fun i => isFailedId s i) ids

/-- Witness for C4: the failed task of the mixed store is reset. -/
theorem batch_retry_witness :
    resetForRetry 50 demoFailedTask ∈ (batchRetry 50 [1, 2] demoMixedStore).1 :=
  batch_retry_resets_failed_and_skips.1 50 [1, 2] demoMixedStore demoFailedTask
    (List.mem_cons_self demoFailedTask [demoCompletedTask]) rfl rfl

/-- C5: a successful claim took a pending task and made it processing; in
the resulting store every task with the claimed id is processing, so a
subsequent claim, at any time, can never return a task with that id:
exactly one claimer wins each task. -/
theorem claim_next_exclusive (kind : TaskKind) (now : Nat) (s : List Task)
    (t : Task) (h : (claimNext kind now s).1 = some t) :
    t.status = TaskStatus.processing ∧
    (∃ u ∈ s, u.status = TaskStatus.pending ∧ u.id = t.id) ∧
    (∀ u ∈ (claimNext kind now s).2, u.id = t.id →
       u.status = TaskStatus.processing) ∧
    (∀ now' t', (claimNext kind now' (claimNext kind now s).2).1 = some t' →
       t'.id ≠ t.id) := by
  rcases claimNext_eq_some kind now s t h with ⟨u0, hp, htEq, hs'⟩
  have hin := List.mem_filter.mp (pickMin_mem _ u0 hp)
  have hel := eligible_props hin.2
  have hstat : t.status = TaskStatus.processing := by rw [htEq]
  have hid : t.id = u0.id := by rw [htEq]
  have hthird : ∀ u ∈ (claimNext kind now s).2, u.id = t.id →
      u.status = TaskStatus.processing := by
    intro u hu huid
    rw [hs'] at hu
    rcases List.mem_map.mp hu with ⟨v, hv, rfl⟩
    by_cases hv0 : v.id = u0.id
    · show (setProcessing now u0.id v).status = TaskStatus.processing
      unfold setProcessing
      rw [if_pos hv0]
    · exfalso
      have hvid : (setProcessing now u0.id v).id = v.id := by
        unfold setProcessing
        rw [if_neg hv0]
      rw [hvid] at huid
      exact hv0 (by rw [huid, hid])
  refine ⟨hstat, ⟨u0, hin.1, hel.1, hid.symm⟩, hthird, ?_⟩
  intro now' t' h2 heq
  rcases claimNext_eq_some kind now' _ t' h2 with ⟨u1, hp1, ht1, _⟩
  have hin1 := List.mem_filter.mp (pickMin_mem _ u1 hp1)
  have hel1 := eligible_props hin1.2
  have htid : t'.id = u1.id := by rw [ht1]
  have hu1id : u1.id = t.id := by
    rw [← htid]
    exact heq
  have hproc := hthird u1 hin1.1 hu1id
  rw [hel1.1] at hproc
  exact absurd hproc (by decide)

/-- Witness for C5: the scenario store claim yields the high-priority
task 2, transitioned to processing. -/
theorem claim_next_exclusive_witness :
    scenarioClaimedTask.status = TaskStatus.processing :=
  (claim_next_exclusive TaskKind.product_crawl 100 scenarioStore
    scenarioClaimedTask (by decide)).1

end EmagErp
